import Mathlib

/-!
Shallow embedding of the eco_back CRUD helper layer
(src/gormtool/crud.go, src/main.go, src/models/user.go) and proofs of
the specification claims about it.
-/

namespace EcoBack

/-- Scalar values as they arrive from a JSON body into a Go interface value:
integers, strings, or JSON null. -/
inductive Prim where
  | pint (n : Int)
  | pstr (s : String)
  | pnull
deriving DecidableEq, Repr

/-- A condition value (Go interface value): either a scalar or a JSON array of
scalars (the shapes the IN / NOT IN / BETWEEN branches inspect). -/
inductive Value where
  | prim (p : Prim)
  | seq (ps : List Prim)
deriving DecidableEq, Repr

/-- QueryCondition (crud.go:39-43). -/
structure QueryCondition where
  field : String
  operator : String
  value : Value
deriving DecidableEq, Repr

/-- The parameterized predicate a single loop iteration of BuildQuery appends
to the query via db.Where (crud.go:557-571). -/
inductive Pred where
  | cmp (field op : String) (v : Value)
  | like (field pattern : String)
  | inSet (field : String) (v : Value)
  | notInSet (field : String) (v : Value)
  | between (field : String) (lo hi : Prim)
deriving DecidableEq, Repr

/-- One iteration of the condition loop in BuildQuery (crud.go:557-571).
Recognized comparison operators add one predicate; LIKE wraps the value in
percent signs after the unchecked Go type assertion cond.Value.(string),
which panics on a non-string value (modelled as none); BETWEEN adds a
predicate only when the value is a 2-element sequence; every other operator
falls through the switch and adds nothing. -/
def buildCondition (cond : QueryCondition) : Option (List Pred) :=
  match cond.operator with
  | "=" | "!=" | ">" | "<" | ">=" | "<=" =>
    some [Pred.cmp cond.field cond.operator cond.value]
  | "LIKE" =>
    match cond.value with
    | Value.prim (Prim.pstr s) => some [Pred.like cond.field ("%" ++ s ++ "%")]
    | _ => none
  | "IN" => some [Pred.inSet cond.field cond.value]
  | "NOT IN" => some [Pred.notInSet cond.field cond.value]
  | "BETWEEN" =>
    match cond.value with
    | Value.seq [a, b] => some [Pred.between cond.field a b]
    | _ => some []
  | _ => some []

/-- BuildQuery (crud.go:551-585), restricted to the condition loop (sorts and
preloads touch other clauses and no claim concerns them). Returns the list of
predicates ANDed onto the query; none models the Go panic raised by the LIKE
branch on a non-string value. -/
def BuildQuery : List QueryCondition → Option (List Pred)
  | [] => some []
  | c :: rest =>
    match buildCondition c, BuildQuery rest with
    | some p, some ps => some (p ++ ps)
    | _, _ => none

/-- A row of the relational store as the built predicates see it: an
association list from column name to scalar value. -/
abbrev Row := List (String × Prim)

/-- Reading a column of a row; a missing column reads as SQL NULL. -/
def getField (r : Row) (f : String) : Prim :=
  match r.find? (fun kv => kv.1 == f) with
  | some kv => kv.2
  | none => Prim.pnull

/-- SQL ordering on scalar values: defined on two integers or two strings,
false elsewhere (comparisons against NULL match nothing). -/
def primLe (a b : Prim) : Bool :=
  match a, b with
  | Prim.pint m, Prim.pint n => decide (m ≤ n)
  | Prim.pstr s, Prim.pstr t => decide (s ≤ t)
  | _, _ => false

/-- Strict version of primLe. -/
def primLt (a b : Prim) : Bool :=
  match a, b with
  | Prim.pint m, Prim.pint n => decide (m < n)
  | Prim.pstr s, Prim.pstr t => decide (s < t)
  | _, _ => false

/-- SQL LIKE pattern matching over character lists; a percent sign matches any
(possibly empty) substring, every other character matches itself. -/
def likeChars : List Char → List Char → Bool
  | [], s => s.isEmpty
  | c :: ps, s =>
    if c = '%' then
      (List.range (s.length + 1)).any (fun k => likeChars ps (s.drop k))
    else
      match s with
      | [] => false
      | d :: ds => c == d && likeChars ps ds

/-- A LIKE predicate against a row value; non-string column values match
nothing. -/
def likeMatch (pat : String) (x : Prim) : Bool :=
  match x with
  | Prim.pstr s => likeChars pat.toList s.toList
  | _ => false

/-- Evaluation of one built predicate against a row (the reference semantics
of the parameterized SQL fragments BuildQuery emits). -/
def evalPred (p : Pred) (r : Row) : Bool :=
  match p with
  | Pred.cmp f op v =>
    let x := getField r f
    match op with
    | "=" => Value.prim x == v
    | "!=" => Value.prim x != v
    | ">" =>
      match v with
      | Value.prim b => primLt b x
      | _ => false
    | "<" =>
      match v with
      | Value.prim b => primLt x b
      | _ => false
    | ">=" =>
      match v with
      | Value.prim b => primLe b x
      | _ => false
    | "<=" =>
      match v with
      | Value.prim b => primLe x b
      | _ => false
    | _ => false
  | Pred.like f pat => likeMatch pat (getField r f)
  | Pred.inSet f v =>
    match v with
    | Value.seq ps => ps.contains (getField r f)
    | _ => false
  | Pred.notInSet f v =>
    match v with
    | Value.seq ps => !(ps.contains (getField r f))
    | _ => false
  | Pred.between f lo hi => primLe lo (getField r f) && primLe (getField r f) hi

/-- The operator set the switch in BuildQuery recognizes (crud.go:41,558-567). -/
def recognizedOps : List String :=
  ["=", "!=", ">", "<", ">=", "<=", "LIKE", "IN", "NOT IN", "BETWEEN"]

/-- A row satisfies all predicates of a built query. -/
def matchesAll (preds : List Pred) (r : Row) : Bool :=
  preds.all (fun p => evalPred p r)

/-- Result of the Go pattern x, _ := strconv.Atoi(s) (crud.go:705-706): a
syntax error is discarded and leaves the zero value. -/
abbrev AtoiResult := Except Unit Int

/-- The integer the handler actually sees after the discarded-error Atoi call:
a numeric parameter parses to itself, a non-numeric one to 0. -/
def atoiOrZero : AtoiResult → Int
  | Except.ok n => n
  | Except.error _ => 0

/-- The Pagination block of the response envelope (crud.go:25-29) together
with the returned page of rows. -/
structure PagedResult where
  rows : List Row
  total : Nat
  page : Int
  pageSize : Int
deriving DecidableEq, Repr

/-- GetByQueryBuilder (crud.go:694-747): normalize page (default 1) and
pageSize (default 10), build the query, count all matching rows for the
total, then fetch with LIMIT pageSize OFFSET (page-1)*pageSize. The stored
rows are the rows visible to the handler; none propagates a BuildQuery
panic. Sorts and preloads only affect row order and eager loading and are
omitted. -/
def GetByQueryBuilder (stored : List Row) (qb : List QueryCondition)
    (pageRaw pageSizeRaw : AtoiResult) : Option PagedResult :=
  let page0 := atoiOrZero pageRaw
  let pageSize0 := atoiOrZero pageSizeRaw
  let page := if page0 < 1 then 1 else page0
  let pageSize := if pageSize0 < 1 then 10 else pageSize0
  match BuildQuery qb with
  | none => none
  | some preds =>
    let matching := stored.filter (matchesAll preds)
    let offset := ((page - 1) * pageSize).toNat
    some { rows := (matching.drop offset).take pageSize.toNat
         , total := matching.length
         , page := page
         , pageSize := pageSize }

/-- The state of a configured cache backend: its key/value pairs, with values
kept as the serialized payloads the code stores. An Option CacheClient models
the RedisClient field of CRUDTool; none is the nil client of main.go:38. -/
structure CacheClient where
  entries : List (String × String)
deriving DecidableEq, Repr

/-- GetFromCache (crud.go:512-527): a nil client always misses; otherwise the
key is looked up and decodeOk models whether json.Unmarshal of the cached
payload succeeds (a failed decode also reports a miss). -/
def GetFromCache (client : Option CacheClient) (decodeOk : String → Bool)
    (key : String) : Bool :=
  match client with
  | none => false
  | some c =>
    match c.entries.lookup key with
    | none => false
    | some data => decodeOk data

/-- SetToCache (crud.go:529-540): a nil client is a no-op returning no error;
otherwise encode models json.Marshal (none = marshal error, reported as the
error flag) and a successful marshal overwrites the key. The Bool component
is true when an error is returned. -/
def SetToCache (client : Option CacheClient) (encode : Option String)
    (key : String) : Option CacheClient × Bool :=
  match client with
  | none => (none, false)
  | some c =>
    match encode with
    | none => (some c, true)
    | some data =>
      (some { entries := (key, data) :: c.entries.filter (fun kv => kv.1 != key) },
       false)

/-- DeleteFromCache (crud.go:542-548): a nil client is a no-op returning no
error; otherwise the key is removed. The Bool component is true when an
error is returned. -/
def DeleteFromCache (client : Option CacheClient) (key : String) :
    Option CacheClient × Bool :=
  match client with
  | none => (none, false)
  | some c =>
    (some { entries := c.entries.filter (fun kv => kv.1 != key) }, false)

/-- GenerateCacheKey (crud.go:508-510): the Sprintf("%T:%v", model, id) key,
with the %T type name passed in as a string. -/
def GenerateCacheKey (typeName : String) (id : Int) : String :=
  typeName ++ ":" ++ toString id

/-- Whether a cache state still holds an entry under the given key. -/
def hasCachedKey (client : Option CacheClient) (key : String) : Bool :=
  match client with
  | none => false
  | some c => (c.entries.lookup key).isSome

/-- A row of the users table (models/user.go:5-10 plus the gorm.Model
embedding): DeletedAt is the soft-delete marker, none when the record is
active. The created/updated timestamps and the Tags association are not part
of any claim and are omitted. -/
structure UserRow where
  id : Nat
  name : String
  age : Int
  deletedAt : Option Nat
deriving DecidableEq, Repr

/-- The mutable state a single-record handler touches: the users table and
the cache client. -/
structure HandlerState where
  store : List UserRow
  cache : Option CacheClient
deriving DecidableEq, Repr

/-- A handler invocation result: the state after the handler ran and the
HTTP status of the response it emitted. -/
structure HandlerOutcome where
  state : HandlerState
  status : Nat
deriving DecidableEq, Repr

/-- The JSON body of an update request as ShouldBindJSON sees it: each of the
two business fields of User is either present or absent. -/
structure UserPatch where
  name : Option String
  age : Option Int
deriving DecidableEq, Repr

/-- ShouldBindJSON into an already-loaded struct (crud.go:816): fields
present in the body overwrite the loaded values, absent fields leave them
untouched. -/
def bindJSON (r : UserRow) (p : UserPatch) : UserRow :=
  { r with name := p.name.getD r.name, age := p.age.getD r.age }

/-- db.First(model, id) under the default soft-delete scope: the first row
with the given id whose deletion marker is not set. -/
def firstActive (store : List UserRow) (id : Int) : Option UserRow :=
  store.find? (fun r => Int.ofNat r.id == id && r.deletedAt == none)

/-- UpdateByID (crud.go:783-842): parse the id (400 on failure), load the
existing record with First (404 when absent), bind the JSON body onto the
loaded record (400 on bind failure), Save the full row back, delete the
(type, id) cache key, respond 200. body = none models a malformed body. -/
def UpdateByID (s : HandlerState) (typeName : String) (idParam : AtoiResult)
    (body : Option UserPatch) : HandlerOutcome :=
  match idParam with
  | Except.error _ => ⟨s, 400⟩
  | Except.ok id =>
    match firstActive s.store id with
    | none => ⟨s, 404⟩
    | some r =>
      match body with
      | none => ⟨s, 400⟩
      | some p =>
        ⟨⟨s.store.map (fun row =>
            if Int.ofNat row.id == id && row.deletedAt == none then bindJSON r p
            else row),
          (DeleteFromCache s.cache (GenerateCacheKey typeName id)).1⟩, 200⟩

/-- SoftDeleteByID (crud.go:845-888): db.Delete under the soft-delete scope
marks every active row with the id as deleted; zero affected rows respond
404 without touching the cache, otherwise the (type, id) cache key is
deleted and the handler responds 200. now is the deletion timestamp. -/
def SoftDeleteByID (s : HandlerState) (typeName : String) (idParam : AtoiResult)
    (now : Nat) : HandlerOutcome :=
  match idParam with
  | Except.error _ => ⟨s, 400⟩
  | Except.ok id =>
    if s.store.countP (fun r => Int.ofNat r.id == id && r.deletedAt == none)
        = 0 then
      ⟨s, 404⟩
    else
      ⟨⟨s.store.map (fun r =>
          if Int.ofNat r.id == id && r.deletedAt == none then
            { r with deletedAt := some now }
          else r),
        (DeleteFromCache s.cache (GenerateCacheKey typeName id)).1⟩, 200⟩

/-- HardDeleteByID (crud.go:891-934): Unscoped().Delete removes every row
with the id regardless of the soft-delete marker; zero affected rows respond
404, otherwise the (type, id) cache key is deleted and the handler responds
200. -/
def HardDeleteByID (s : HandlerState) (typeName : String)
    (idParam : AtoiResult) : HandlerOutcome :=
  match idParam with
  | Except.error _ => ⟨s, 400⟩
  | Except.ok id =>
    if s.store.countP (fun r => Int.ofNat r.id == id) = 0 then ⟨s, 404⟩
    else
      ⟨⟨s.store.filter (fun r => !(Int.ofNat r.id == id)),
        (DeleteFromCache s.cache (GenerateCacheKey typeName id)).1⟩, 200⟩

/-- RestoreSoftDelete (crud.go:937-976): Unscoped().Model().Where(id)
.Update("deleted_at", nil) clears the deletion marker of every row with the
id; the affected-row count is the number of matched rows (SQLite counts
matched rows even when the stored value is unchanged), zero of which
responds 404. No cache invalidation is performed by this handler. The
automatic updated_at touch is not modelled. -/
def RestoreSoftDelete (s : HandlerState) (idParam : AtoiResult) : HandlerOutcome :=
  match idParam with
  | Except.error _ => ⟨s, 400⟩
  | Except.ok id =>
    if s.store.countP (fun r => Int.ofNat r.id == id) = 0 then ⟨s, 404⟩
    else
      ⟨⟨s.store.map (fun r =>
          if Int.ofNat r.id == id then { r with deletedAt := none } else r),
        s.cache⟩, 200⟩

/-- Outcome of the batch hard delete route: the store after the handler, the
HTTP status, and the value of the affected field of the response body (none
when the response carries no such field). -/
structure BatchOutcome where
  store : List UserRow
  status : Nat
  affected : Option Nat
deriving DecidableEq, Repr

/-- batchHardDelete (main.go:215-232): bind the ids body (400 on failure),
hard-delete the rows whose id is listed inside a transaction, then respond
200 with affected set to len(ids.IDs), the length of the submitted list. -/
def batchHardDelete (store : List UserRow) (body : Option (List Nat)) :
    BatchOutcome :=
  match body with
  | none => ⟨store, 400, none⟩
  | some ids =>
    ⟨store.filter (fun r => !(ids.contains r.id)), 200, some ids.length⟩

/-- A row of the tags table (models/user.go:23-26); Name carries a unique
index. -/
structure TagRow where
  id : Nat
  name : String
deriving DecidableEq, Repr

/-- A row of the profiles table (models/user.go:14-19). -/
structure ProfileRow where
  id : Nat
  userID : Nat
  avatar : String
  bio : String
deriving DecidableEq, Repr

/-- The relational state the cascade-create route touches: users, profiles,
tags, and the user_tags many-to-many join table (pairs of user id and tag
id). -/
structure EcoStore where
  users : List UserRow
  profiles : List ProfileRow
  tags : List TagRow
  userTags : List (Nat × Nat)
deriving DecidableEq, Repr

/-- Error type of store operations: the driver error message. -/
abbrev Err := String

/-- The next auto-increment primary key: one past the largest id in use. -/
def nextId (ids : List Nat) : Nat :=
  ids.foldr max 0 + 1

/-- tx.Create(&req.User) (main.go:89): insert the user with a fresh id and
report the assigned id back into the struct. -/
def createUserTx (s : EcoStore) (name : String) (age : Int) : EcoStore × Nat :=
  let uid := nextId (s.users.map (fun u => u.id))
  ({ s with users := s.users ++ [⟨uid, name, age, none⟩] }, uid)

/-- tx.Create(&req.Profile) after req.Profile.UserID = req.User.ID
(main.go:93-94): insert the profile with a fresh id. -/
def createProfileTx (s : EcoStore) (userID : Nat) (avatar bio : String) :
    EcoStore :=
  let pid := nextId (s.profiles.map (fun p => p.id))
  { s with profiles := s.profiles ++ [⟨pid, userID, avatar, bio⟩] }

/-- tx.Model(&req.User).Association("Tags").Append(req.Tags) (main.go:98):
each submitted tag is a fresh struct, so the append inserts a new tags row
plus a join row per tag; the unique index on tags.name (models/user.go:25)
makes the insert of an already-present name fail with a constraint error,
which the association call propagates. -/
def appendTagsTx (uid : Nat) : EcoStore → List String → Except Err EcoStore
  | s, [] => Except.ok s
  | s, n :: rest =>
    if s.tags.any (fun t => t.name == n) then
      Except.error ("UNIQUE constraint failed: tags.name")
    else
      let tid := nextId (s.tags.map (fun t => t.id))
      appendTagsTx uid
        { s with tags := s.tags ++ [⟨tid, n⟩],
                 userTags := s.userTags ++ [(uid, tid)] } rest

/-- WithTransaction (crud.go:135-139) hands the callback a transactional
handle. Modelled from the spec: the ORM Transaction method it delegates to
is library code outside this repository; per the spec contract it commits
the callback's writes on success, rolls the store back to its pre-call state
on failure, and propagates the failure to the caller. -/
def WithTransaction (s : EcoStore) (fn : EcoStore → Except Err EcoStore) :
    EcoStore × Option Err :=
  match fn s with
  | Except.ok s2 => (s2, none)
  | Except.error e => (s, some e)

/-- The JSON payload of POST /users (main.go:76-80): the user fields, the
nested profile, and the tag names. -/
structure CreateUserReq where
  name : String
  age : Int
  avatar : String
  bio : String
  tagNames : List String
deriving DecidableEq, Repr

/-- The transaction callback of createUserWithEverything (main.go:87-99):
create the user, create the profile wired to the new user id, then append
the tags; any step's failure aborts the sequence. -/
def cascadeBody (req : CreateUserReq) (tx : EcoStore) : Except Err EcoStore :=
  let step1 := createUserTx tx req.name req.age
  let tx2 := createProfileTx step1.1 step1.2 req.avatar req.bio
  appendTagsTx step1.2 tx2 req.tagNames

/-- Outcome of the cascade-create route: store after the handler, HTTP
status, and the propagated error message when the transaction failed. -/
structure CreateOutcome where
  store : EcoStore
  status : Nat
  errMsg : Option Err
deriving DecidableEq, Repr

/-- createUserWithEverything (main.go:75-105): bind the payload (400 on
failure), run the cascade inside WithTransaction, respond 500 with the error
on failure and 201 with the created user on success. -/
def createUserWithEverything (s : EcoStore) (body : Option CreateUserReq) :
    CreateOutcome :=
  match body with
  | none => ⟨s, 400, none⟩
  | some req =>
    match WithTransaction s (cascadeBody req) with
    | (s2, none) => ⟨s2, 201, none⟩
    | (s2, some e) => ⟨s2, 500, some e⟩

theorem buildCondition_unrecognized (cond : QueryCondition)
    (hop : cond.operator ∉ recognizedOps) : buildCondition cond = some [] := by
  obtain ⟨f, op, v⟩ := cond
  simp only [recognizedOps, List.mem_cons, List.not_mem_nil, or_false] at hop
  push_neg at hop
  obtain ⟨h1, h2, h3, h4, h5, h6, h7, h8, h9, h10⟩ := hop
  unfold buildCondition
  split <;> simp_all

theorem buildQuery_skips_empty (cond : QueryCondition) (rest : List QueryCondition)
    (h : buildCondition cond = some ([] : List Pred)) :
    BuildQuery (cond :: rest) = BuildQuery rest := by
  have hstep : BuildQuery (cond :: rest) =
      match buildCondition cond, BuildQuery rest with
      | some p, some ps => some (p ++ ps)
      | _, _ => none := rfl
  rw [hstep, h]
  cases hq : BuildQuery rest <;> rfl

theorem buildCondition_between_malformed (f : String) (v : Value)
    (hv : ∀ a b : Prim, v ≠ Value.seq [a, b]) :
    buildCondition ⟨f, "BETWEEN", v⟩ = some [] := by
  cases v with
  | prim p => rfl
  | seq ps =>
    match ps, hv with
    | [], _ => rfl
    | [a], _ => rfl
    | a :: b :: c :: t, _ => rfl
    | [a, b], hv => exact absurd rfl (hv a b)

theorem buildCondition_isSome (c : QueryCondition)
    (h : c.operator = "LIKE" → ∃ s, c.value = Value.prim (Prim.pstr s)) :
    (buildCondition c).isSome = true := by
  obtain ⟨f, op, v⟩ := c
  unfold buildCondition
  split
  all_goals
    first
    | rfl
    | (split <;> rfl)
    | (rename_i heq
       obtain ⟨s, hs⟩ := h heq
       have hv : v = Value.prim (Prim.pstr s) := hs
       subst hv
       rfl)

/-- C6: a condition whose operator is outside the recognized set adds no
predicate to the built query; a BETWEEN condition whose value is not a
2-element sequence also adds none; a BETWEEN condition with bounds [a, b]
adds the single predicate field BETWEEN a AND b, whose evaluation is the
inclusive a ≤ x ∧ x ≤ b. -/
theorem buildQuery_operator_handling :
    (∀ cond : QueryCondition, cond.operator ∉ recognizedOps →
      buildCondition cond = some [] ∧
      ∀ rest, BuildQuery (cond :: rest) = BuildQuery rest)
  ∧ (∀ f v, (∀ a b : Prim, v ≠ Value.seq [a, b]) →
      buildCondition ⟨f, "BETWEEN", v⟩ = some [] ∧
      ∀ rest, BuildQuery (⟨f, "BETWEEN", v⟩ :: rest) = BuildQuery rest)
  ∧ (∀ f (a b : Prim),
      buildCondition ⟨f, "BETWEEN", Value.seq [a, b]⟩ = some [Pred.between f a b])
  ∧ (∀ f (a b x : Int) (r : Row), getField r f = Prim.pint x →
      (evalPred (Pred.between f (Prim.pint a) (Prim.pint b)) r = true ↔
        a ≤ x ∧ x ≤ b)) := by
  refine ⟨?_, ?_, ?_, ?_⟩
  · intro cond hop
    have h := buildCondition_unrecognized cond hop
    exact ⟨h, fun rest => buildQuery_skips_empty cond rest h⟩
  · intro f v hv
    have h := buildCondition_between_malformed f v hv
    exact ⟨h, fun rest => buildQuery_skips_empty _ rest h⟩
  · intro f a b
    rfl
  · intro f a b x r hx
    simp [evalPred, hx, primLe]

/-- Witness for C6: concrete instances for the unrecognized operator FOO, a
malformed BETWEEN value, and the BETWEEN bounds [10, 20] tested at 15. -/
theorem buildQuery_operator_handling_witness :
    buildCondition ⟨"age", "FOO", Value.prim (Prim.pint 1)⟩ = some []
  ∧ buildCondition ⟨"age", "BETWEEN", Value.prim (Prim.pint 1)⟩ = some []
  ∧ buildCondition ⟨"age", "BETWEEN", Value.seq [Prim.pint 10, Prim.pint 20]⟩
      = some [Pred.between "age" (Prim.pint 10) (Prim.pint 20)]
  ∧ (evalPred (Pred.between "age" (Prim.pint 10) (Prim.pint 20))
        [("age", Prim.pint 15)] = true ↔ (10 : Int) ≤ 15 ∧ (15 : Int) ≤ 20) :=
  ⟨(buildQuery_operator_handling.1 ⟨"age", "FOO", Value.prim (Prim.pint 1)⟩
      (by decide)).1,
   (buildQuery_operator_handling.2.1 "age" (Value.prim (Prim.pint 1))
      (by intro a b h; exact Value.noConfusion h)).1,
   buildQuery_operator_handling.2.2.1 "age" (Prim.pint 10) (Prim.pint 20),
   buildQuery_operator_handling.2.2.2 "age" 10 20 15 [("age", Prim.pint 15)]
      (by decide)⟩

/-- C9: the LIKE branch of BuildQuery is defined only for string values: a
LIKE condition carrying a non-string value hits the unchecked Go type
assertion and panics (modelled as none), while under the precondition that
every LIKE condition carries a string value the build always succeeds. -/
theorem buildQuery_like_requires_string :
    buildCondition ⟨"name", "LIKE", Value.prim (Prim.pint 3)⟩ = none
  ∧ BuildQuery [⟨"name", "LIKE", Value.prim (Prim.pint 3)⟩] = none
  ∧ ∀ conds : List QueryCondition,
      (∀ c ∈ conds, c.operator = "LIKE" → ∃ s, c.value = Value.prim (Prim.pstr s)) →
      (BuildQuery conds).isSome = true := by
  refine ⟨rfl, rfl, ?_⟩
  intro conds h
  induction conds with
  | nil => rfl
  | cons c rest ih =>
    have hc : (buildCondition c).isSome = true :=
      buildCondition_isSome c (fun hop => h c (List.mem_cons_self c rest) hop)
    have hr : (BuildQuery rest).isSome = true :=
      ih (fun d hd => h d (List.mem_cons_of_mem c hd))
    obtain ⟨p, hp⟩ := Option.isSome_iff_exists.mp hc
    obtain ⟨ps, hps⟩ := Option.isSome_iff_exists.mp hr
    have hstep : BuildQuery (c :: rest) =
        match buildCondition c, BuildQuery rest with
        | some p, some ps => some (p ++ ps)
        | _, _ => none := rfl
    rw [hstep, hp, hps]
    rfl

/-- Witness for C9: the totality direction applied to a concrete condition
list whose LIKE condition carries a string value. -/
theorem buildQuery_like_requires_string_witness :
    (BuildQuery [⟨"name", "LIKE", Value.prim (Prim.pstr "al")⟩,
                 ⟨"age", ">=", Value.prim (Prim.pint 18)⟩]).isSome = true :=
  buildQuery_like_requires_string.2.2 _ (by
    intro c hc hop
    simp only [List.mem_cons, List.not_mem_nil, or_false] at hc
    rcases hc with hc | hc
    · subst hc
      exact ⟨"al", rfl⟩
    · subst hc
      exact absurd hop (by decide))

/-- C4: a page parameter that is non-numeric or parses below 1 is replaced by
page = 1, a pageSize parameter that is non-numeric or parses below 1 is
replaced by pageSize = 10, and the returned rows are always the slice at
offset (page-1)*pageSize limited to pageSize. -/
theorem pager_defaults (stored : List Row) (qb : List QueryCondition)
    (pageRaw pageSizeRaw : AtoiResult) (res : PagedResult)
    (h : GetByQueryBuilder stored qb pageRaw pageSizeRaw = some res) :
    (atoiOrZero pageRaw < 1 → res.page = 1)
  ∧ (atoiOrZero pageSizeRaw < 1 → res.pageSize = 10)
  ∧ (1 ≤ atoiOrZero pageRaw → res.page = atoiOrZero pageRaw)
  ∧ (1 ≤ atoiOrZero pageSizeRaw → res.pageSize = atoiOrZero pageSizeRaw)
  ∧ ∃ preds, BuildQuery qb = some preds ∧
      res.rows = ((stored.filter (matchesAll preds)).drop
        ((res.page - 1) * res.pageSize).toNat).take res.pageSize.toNat := by
  unfold GetByQueryBuilder at h
  cases hq : BuildQuery qb with
  | none =>
    rw [hq] at h
    cases h
  | some preds =>
    rw [hq] at h
    injection h with h
    subst h
    refine ⟨?_, ?_, ?_, ?_, preds, rfl, ?_⟩
    · intro hp
      simp [hp]
    · intro hp
      simp [hp]
    · intro hp
      simp [Int.not_lt.mpr hp]
    · intro hp
      simp [Int.not_lt.mpr hp]
    · rfl

/-- Witness for C4: a non-numeric page and pageSize 0 default to page 1 and
pageSize 10 on a one-row store. -/
theorem pager_defaults_witness :
    ({ rows := [[("age", Prim.pint 3)]], total := 1, page := 1, pageSize := 10 }
        : PagedResult).page = 1 :=
  (pager_defaults [[("age", Prim.pint 3)]] [] (Except.error ()) (Except.ok 0)
    { rows := [[("age", Prim.pint 3)]], total := 1, page := 1, pageSize := 10 }
    (by decide)).1 (by decide)

/-- C5: for page ≥ 1 and pageSize ≥ 1 the pager returns at most pageSize rows
and reports as total the count of all rows matching the built filter,
independent of the requested page. -/
theorem pager_bound_and_total (stored : List Row) (qb : List QueryCondition)
    (p ps : Int) (hp : 1 ≤ p) (hps : 1 ≤ ps) (res : PagedResult)
    (h : GetByQueryBuilder stored qb (Except.ok p) (Except.ok ps) = some res) :
    res.rows.length ≤ ps.toNat
  ∧ ∃ preds, BuildQuery qb = some preds ∧
      res.total = (stored.filter (matchesAll preds)).length := by
  unfold GetByQueryBuilder at h
  cases hq : BuildQuery qb with
  | none =>
    rw [hq] at h
    cases h
  | some preds =>
    rw [hq] at h
    injection h with h
    subst h
    constructor
    · have hlen : ∀ (l : List Row) (n : Nat), (l.take n).length ≤ n := by
        intro l n
        rw [List.length_take]
        exact min_le_left _ _
      simp only [atoiOrZero, Int.not_lt.mpr hps, if_false]
      exact hlen _ _
    · exact ⟨preds, rfl, by simp⟩

/-- Witness for C5: page 2, pageSize 1 over a two-row store returns one row
and total 2. -/
theorem pager_bound_and_total_witness :
    ({ rows := [[("age", Prim.pint 4)]], total := 2, page := 2, pageSize := 1 }
        : PagedResult).rows.length ≤ (1 : Int).toNat :=
  (pager_bound_and_total [[("age", Prim.pint 3)], [("age", Prim.pint 4)]] []
    2 1 (by decide) (by decide)
    { rows := [[("age", Prim.pint 4)]], total := 2, page := 2, pageSize := 1 }
    (by decide)).1

/-- C7: with a nil cache client every get misses and set and delete are
no-ops that return no error, so callers take the same control flow whether
or not a cache backend is configured. -/
theorem nil_cache_shim (decodeOk : String → Bool) (encode : Option String)
    (key : String) :
    GetFromCache none decodeOk key = false
  ∧ SetToCache none encode key = (none, false)
  ∧ DeleteFromCache none key = (none, false) :=
  ⟨rfl, rfl, rfl⟩

theorem lookup_filter_self (entries : List (String × String)) (key : String) :
    (entries.filter (fun kv => kv.1 != key)).lookup key = none := by
  induction entries with
  | nil => rfl
  | cons kv t ih =>
    obtain ⟨k, v⟩ := kv
    by_cases h : k = key
    · simp [List.filter_cons, h, ih]
    · have hbk : (key == k) = false := by simp [Ne.symm h]
      simp [List.filter_cons, h, List.lookup, hbk, ih]

theorem deleteFromCache_clears (cache : Option CacheClient) (key : String) :
    hasCachedKey (DeleteFromCache cache key).1 key = false := by
  cases cache with
  | none => rfl
  | some c => simp [DeleteFromCache, hasCachedKey, lookup_filter_self]

theorem map_eq_self_of_mem {α : Type} (l : List α) (f : α → α)
    (h : ∀ x ∈ l, f x = x) : l.map f = l := by
  induction l with
  | nil => rfl
  | cons a t ih =>
    rw [List.map_cons, h a (List.mem_cons_self a t),
      ih (fun x hx => h x (List.mem_cons_of_mem a hx))]

theorem find?_map_overwrite {α : Type} (p : α → Bool) (u : α) (hu : p u = true)
    (l : List α) (r : α) (h : l.find? p = some r) :
    (l.map (fun x => if p x then u else x)).find? p = some u := by
  induction l with
  | nil => cases h
  | cons a t ih =>
    by_cases ha : p a = true
    · rw [List.map_cons, if_pos ha]
      exact List.find?_cons_of_pos _ hu
    · rw [List.find?_cons_of_neg t (by simpa using ha)] at h
      rw [List.map_cons, if_neg ha,
        List.find?_cons_of_neg _ (by simpa using ha)]
      exact ih h

theorem length_eq_filter_add {α : Type} (q : α → Bool) (l : List α) :
    l.length = (l.filter q).length + l.countP (fun a => !(q a)) := by
  induction l with
  | nil => rfl
  | cons a t ih =>
    by_cases h : q a <;> simp [List.filter_cons, List.countP_cons, h] <;> omega

/-- Counterexample for C1: ids [1, 2, 3] against a store holding only ids 1
and 3: the handler removes 2 rows yet reports affected = 3, the length of
the submitted list. -/
theorem batch_affected_counterexample :
    batchHardDelete [⟨1, "a", 30, none⟩, ⟨3, "c", 40, none⟩] (some [1, 2, 3])
      = ⟨[], 200, some 3⟩
  ∧ ([⟨1, "a", 30, none⟩, ⟨3, "c", 40, none⟩] : List UserRow).length
      - ([] : List UserRow).length = 2
  ∧ (batchHardDelete [⟨1, "a", 30, none⟩, ⟨3, "c", 40, none⟩]
      (some [1, 2, 3])).affected ≠ some 2 := by
  refine ⟨rfl, rfl, ?_⟩
  decide

/-- C1 amended: DELETE /users/batch/hard always succeeds with affected equal
to the length of the submitted id list, while the rows actually removed are
exactly the stored rows whose id is listed — so affected can exceed the
removed count when some listed ids do not exist. -/
theorem batch_affected_is_request_length (store : List UserRow)
    (ids : List Nat) :
    (batchHardDelete store (some ids)).status = 200
  ∧ (batchHardDelete store (some ids)).affected = some ids.length
  ∧ store.length - (batchHardDelete store (some ids)).store.length
      = store.countP (fun r => ids.contains r.id) := by
  refine ⟨rfl, rfl, ?_⟩
  have h := length_eq_filter_add (fun r : UserRow => !(ids.contains r.id)) store
  have h2 : store.countP (fun a : UserRow => !(!(ids.contains a.id)))
      = store.countP (fun r : UserRow => ids.contains r.id) := by
    apply List.countP_congr
    intro a _
    simp
  simp only [batchHardDelete]
  omega

/-- Counterexample for C2: a successful restore of a soft-deleted record
responds 200 yet leaves the cached entry for that (type, id) key in place —
the restore handler performs no cache invalidation. -/
theorem restore_cache_counterexample :
    (RestoreSoftDelete
        ⟨[⟨1, "alice", 30, some 7⟩],
         some ⟨[(GenerateCacheKey "*models.User" 1, "cached")]⟩⟩
        (Except.ok 1)).status = 200
  ∧ hasCachedKey
      (RestoreSoftDelete
          ⟨[⟨1, "alice", 30, some 7⟩],
           some ⟨[(GenerateCacheKey "*models.User" 1, "cached")]⟩⟩
          (Except.ok 1)).state.cache
      (GenerateCacheKey "*models.User" 1) = true := by
  refine ⟨rfl, ?_⟩
  decide

/-- C2 amended: the update, soft-delete and hard-delete handlers delete the
(type, id) cache key before sending their success response; the restore
handler performs no cache invalidation and returns the cache state
unchanged. -/
theorem write_handler_cache_invalidation (s : HandlerState) (tn : String)
    (id : Int) (body : Option UserPatch) (now : Nat) (idp : AtoiResult) :
    ((UpdateByID s tn (Except.ok id) body).status = 200 →
      hasCachedKey (UpdateByID s tn (Except.ok id) body).state.cache
        (GenerateCacheKey tn id) = false)
  ∧ ((SoftDeleteByID s tn (Except.ok id) now).status = 200 →
      hasCachedKey (SoftDeleteByID s tn (Except.ok id) now).state.cache
        (GenerateCacheKey tn id) = false)
  ∧ ((HardDeleteByID s tn (Except.ok id)).status = 200 →
      hasCachedKey (HardDeleteByID s tn (Except.ok id)).state.cache
        (GenerateCacheKey tn id) = false)
  ∧ (RestoreSoftDelete s idp).state.cache = s.cache := by
  refine ⟨?_, ?_, ?_, ?_⟩
  · intro h200
    cases hf : firstActive s.store id with
    | none => simp [UpdateByID, hf] at h200
    | some r =>
      cases body with
      | none => simp [UpdateByID, hf] at h200
      | some p =>
        simp only [UpdateByID, hf]
        exact deleteFromCache_clears s.cache (GenerateCacheKey tn id)
  · intro h200
    by_cases hz : s.store.countP
        (fun r => Int.ofNat r.id == id && r.deletedAt == none) = 0
    · simp only [SoftDeleteByID] at h200
      rw [if_pos hz] at h200
      simp at h200
    · simp only [SoftDeleteByID]
      rw [if_neg hz]
      exact deleteFromCache_clears s.cache (GenerateCacheKey tn id)
  · intro h200
    by_cases hz : s.store.countP (fun r => Int.ofNat r.id == id) = 0
    · simp only [HardDeleteByID] at h200
      rw [if_pos hz] at h200
      simp at h200
    · simp only [HardDeleteByID]
      rw [if_neg hz]
      exact deleteFromCache_clears s.cache (GenerateCacheKey tn id)
  · cases idp with
    | error u => rfl
    | ok i =>
      simp only [RestoreSoftDelete]
      by_cases hz : s.store.countP (fun r => Int.ofNat r.id == i) = 0
      · rw [if_pos hz]
      · rw [if_neg hz]

/-- Witness for the amended C2: a successful update on id 1 leaves no cached
entry under the (type, id) key. -/
theorem write_handler_cache_invalidation_witness :
    hasCachedKey
      (UpdateByID
        ⟨[⟨1, "bob", 20, none⟩],
         some ⟨[(GenerateCacheKey "*models.User" 1, "cached")]⟩⟩
        "*models.User" (Except.ok 1) (some ⟨none, some 21⟩)).state.cache
      (GenerateCacheKey "*models.User" 1) = false :=
  (write_handler_cache_invalidation
    ⟨[⟨1, "bob", 20, none⟩],
     some ⟨[(GenerateCacheKey "*models.User" 1, "cached")]⟩⟩
    "*models.User" 1 (some ⟨none, some 21⟩) 0 (Except.ok 1)).1 (by decide)

/-- C3: whenever the cascade-create transaction callback (create user, then
profile, then tags) fails at any step, the handler leaves the store exactly
as it was — no record created by an earlier step persists — and responds 500
with the failure propagated. -/
theorem cascade_create_atomic (s : EcoStore) (req : CreateUserReq) (e : Err)
    (h : cascadeBody req s = Except.error e) :
    createUserWithEverything s (some req) = ⟨s, 500, some e⟩ := by
  simp only [createUserWithEverything, WithTransaction, h]

/-- Witness for C3: a store already holding the tag vip; the cascade creates
the user and profile, then fails appending the duplicate tag vip, and the
handler rolls everything back — even though step 1 alone would have inserted
the user. -/
theorem cascade_create_atomic_witness :
    createUserWithEverything ⟨[], [], [⟨1, "vip"⟩], []⟩
        (some ⟨"alice", 30, "", "hi", ["vip"]⟩)
      = ⟨⟨[], [], [⟨1, "vip"⟩], []⟩, 500,
         some "UNIQUE constraint failed: tags.name"⟩
  ∧ (createUserTx ⟨[], [], [⟨1, "vip"⟩], []⟩ "alice" 30).1.users
      = [⟨1, "alice", 30, none⟩] :=
  ⟨cascade_create_atomic ⟨[], [], [⟨1, "vip"⟩], []⟩
    ⟨"alice", 30, "", "hi", ["vip"]⟩ "UNIQUE constraint failed: tags.name" rfl,
   rfl⟩

/-- C8: restoring a record all of whose stored rows under that id are still
active succeeds with the store unchanged (a no-op 200), while soft-deleting
an id whose rows are all already soft-deleted — or absent entirely — matches
zero rows and responds 404 NotFound with the store unchanged. -/
theorem restore_softdelete_idempotence
    (s1 : HandlerState) (id1 : Int)
    (hex : ∃ r ∈ s1.store, Int.ofNat r.id = id1)
    (hact : ∀ r ∈ s1.store, Int.ofNat r.id = id1 → r.deletedAt = none)
    (s2 : HandlerState) (tn : String) (id2 : Int) (now : Nat)
    (hdel : ∀ r ∈ s2.store, Int.ofNat r.id = id2 → r.deletedAt ≠ none) :
    RestoreSoftDelete s1 (Except.ok id1) = ⟨s1, 200⟩
  ∧ SoftDeleteByID s2 tn (Except.ok id2) now = ⟨s2, 404⟩
  ∧ s2.store.countP (fun r => Int.ofNat r.id == id2 && r.deletedAt == none)
      = 0 := by
  have hzero : s2.store.countP
      (fun r => Int.ofNat r.id == id2 && r.deletedAt == none) = 0 := by
    rw [List.countP_eq_zero]
    intro r hr hpred
    simp only [Bool.and_eq_true, beq_iff_eq] at hpred
    exact hdel r hr hpred.1 hpred.2
  refine ⟨?_, ?_, hzero⟩
  · obtain ⟨r0, hr0, hid0⟩ := hex
    have hpos : s1.store.countP (fun r => Int.ofNat r.id == id1) ≠ 0 := by
      have h1 : 0 < s1.store.countP (fun r => Int.ofNat r.id == id1) :=
        List.countP_pos_iff.mpr ⟨r0, hr0, beq_iff_eq.mpr hid0⟩
      omega
    simp only [RestoreSoftDelete]
    rw [if_neg hpos]
    have hmap : s1.store.map (fun r =>
        if Int.ofNat r.id == id1 then { r with deletedAt := none } else r)
        = s1.store := by
      apply map_eq_self_of_mem
      intro x hx
      by_cases hxid : Int.ofNat x.id = id1
      · have hxa := hact x hx hxid
        simp only [hxid, beq_self_eq_true, if_true]
        cases x with
        | mk xid xn xa xd => simp_all
      · rw [beq_eq_false_iff_ne.mpr hxid]
        simp
    rw [hmap]
  · simp only [SoftDeleteByID]
    rw [if_pos hzero]

/-- Witness for C8: restoring the active row id 1 is a no-op 200, and
soft-deleting the already-soft-deleted row id 2 responds 404 with zero rows
affected. -/
theorem restore_softdelete_idempotence_witness :
    RestoreSoftDelete ⟨[⟨1, "a", 10, none⟩], none⟩ (Except.ok 1)
      = ⟨⟨[⟨1, "a", 10, none⟩], none⟩, 200⟩
  ∧ SoftDeleteByID ⟨[⟨2, "b", 20, some 3⟩], none⟩ "*models.User"
      (Except.ok 2) 9
      = ⟨⟨[⟨2, "b", 20, some 3⟩], none⟩, 404⟩
  ∧ ([⟨2, "b", 20, some 3⟩] : List UserRow).countP
      (fun r => Int.ofNat r.id == 2 && r.deletedAt == none) = 0 :=
  restore_softdelete_idempotence ⟨[⟨1, "a", 10, none⟩], none⟩ 1
    (by decide) (by decide)
    ⟨[⟨2, "b", 20, some 3⟩], none⟩ "*models.User" 2 9 (by decide)

/-- C10: UpdateByID loads the stored record before binding the JSON body
onto it, so after a successful update the row saved under the id is the
loaded row overwritten only at the fields present in the body: absent fields
keep their previously stored values, present fields take the body's values. -/
theorem update_preserves_absent_fields (s : HandlerState) (tn : String)
    (id : Int) (r : UserRow) (p : UserPatch)
    (hr : firstActive s.store id = some r) :
    (UpdateByID s tn (Except.ok id) (some p)).status = 200
  ∧ firstActive (UpdateByID s tn (Except.ok id) (some p)).state.store id
      = some (bindJSON r p)
  ∧ (p.name = none → (bindJSON r p).name = r.name)
  ∧ (p.age = none → (bindJSON r p).age = r.age)
  ∧ (∀ v, p.name = some v → (bindJSON r p).name = v)
  ∧ (∀ v, p.age = some v → (bindJSON r p).age = v) := by
  have hr2 : s.store.find?
      (fun r => Int.ofNat r.id == id && r.deletedAt == none) = some r := hr
  have hpr := List.find?_some hr2
  have hpu : (fun row => Int.ofNat row.id == id && row.deletedAt == none)
      (bindJSON r p) = true := hpr
  refine ⟨?_, ?_, ?_, ?_, ?_, ?_⟩
  · simp [UpdateByID, hr]
  · simp only [UpdateByID, hr]
    exact find?_map_overwrite
      (fun row => Int.ofNat row.id == id && row.deletedAt == none)
      (bindJSON r p) hpu s.store r hr2
  · intro hn
    simp [bindJSON, hn]
  · intro hn
    simp [bindJSON, hn]
  · intro v hn
    simp [bindJSON, hn]
  · intro v hn
    simp [bindJSON, hn]

/-- Witness for C10: updating id 1 with a body carrying only age leaves the
stored name bob untouched and sets age to 21. -/
theorem update_preserves_absent_fields_witness :
    (UpdateByID ⟨[⟨1, "bob", 20, none⟩], none⟩ "*models.User" (Except.ok 1)
        (some ⟨none, some 21⟩)).status = 200
  ∧ firstActive (UpdateByID ⟨[⟨1, "bob", 20, none⟩], none⟩ "*models.User"
        (Except.ok 1) (some ⟨none, some 21⟩)).state.store 1
      = some (bindJSON ⟨1, "bob", 20, none⟩ ⟨none, some 21⟩) :=
  ⟨(update_preserves_absent_fields ⟨[⟨1, "bob", 20, none⟩], none⟩
      "*models.User" 1 ⟨1, "bob", 20, none⟩ ⟨none, some 21⟩ (by decide)).1,
   (update_preserves_absent_fields ⟨[⟨1, "bob", 20, none⟩], none⟩
      "*models.User" 1 ⟨1, "bob", 20, none⟩ ⟨none, some 21⟩ (by decide)).2.1⟩

end EcoBack
